import Mathlib

/-!
A shallow embedding of `post_processing.py` (pressure-curve post-processing).

A data frame is a list of rows; the pandas index of a frame read from csv is
the range 0, 1, ..., n-1, so row labels coincide with list positions and the
inclusive label slice `df.loc[s:e]` is the positional slice `[s, e]`.
Numeric values are rationals; a possibly-missing (NaN) cell of the sparse
columns `aortic_ratio` / `diastolic_ratio` is an `Option`; `np.mean` of an
empty list (NaN) is `none`.  Exceptions raised by the Python code become
`Except` errors.
-/

namespace PostProcessing

/-- One row of the input table (one sample of a recording). -/
structure Row where
  time : ℚ
  p_aortic_smooth : ℚ
  p_distal_smooth : ℚ
  pdpa : ℚ
  iFR : ℚ
  mid_systolic_ratio : ℚ
  peaks : ℕ
  aortic_ratio : Option ℚ
  diastolic_ratio : Option ℚ
  deriving DecidableEq

instance : Inhabited Row := ⟨⟨0, 0, 0, 0, 0, 0, 0, none, none⟩⟩

/-- `df.loc[i, col]`-style row access: the row at positional label `i`. -/
def rowAt (df : List Row) (i : ℕ) : Row := df.getD i default

/-- `ifr_df.index[ifr_df['peaks'] == 2].tolist()`: the labels whose `peaks`
cell is the diastolic marker code 2, in index order. -/
def diastolicIndices (df : List Row) : List ℕ :=
  (List.range df.length).filter (fun i => (rowAt df i).peaks == 2)

/-- The pairs `(d[i], d[i+1])` visited by `for i in range(len(d) - 1)`. -/
def consecPairs : List ℕ → List (ℕ × ℕ)
  | a :: b :: rest => (a, b) :: consecPairs (b :: rest)
  | _ => []

/-- `df.loc[s:e]`: the inclusive positional slice from `s` to `e`. -/
def slice (df : List Row) (s e : ℕ) : List Row :=
  (df.drop s).take (e - s + 1)

/-- `np.interp(x, xp, fp)` on the zipped breakpoint list `xp.zip fp`
(assumed sorted by first component): clamp to the end values outside the
breakpoint range, piecewise-linear inside it. -/
def interpSeg (x : ℚ) : List (ℚ × ℚ) → ℚ
  | [] => 0
  | [a] => a.2
  | a :: b :: rest =>
    if x ≤ a.1 then a.2
    else if x ≤ b.1 then a.2 + (b.2 - a.2) * (x - a.1) / (b.1 - a.1)
    else interpSeg x (b :: rest)

/-- `np.linspace(0, 1, n)`. -/
def linspace01 (n : ℕ) : List ℚ :=
  (List.range n).map (fun i : ℕ => if n ≤ 1 then (0 : ℚ) else (i : ℚ) / ((n : ℚ) - 1))

/-- `np.interp(np.linspace(0,1,num_points), np.linspace(0,1,len(data)), data)`:
one cycle's samples rescaled onto the common `num_points`-long axis. -/
def rescaleCurve (numPoints : ℕ) (data : List ℚ) : List ℚ :=
  (linspace01 numPoints).map (fun x => interpSeg x ((linspace01 data.length).zip data))

/-- `np.mean` of a nonempty list (sum over length; 0 on the empty list,
which the code never exposes: see `meanOpt` for the NaN-producing uses). -/
def ratMean (l : List ℚ) : ℚ := l.sum / l.length

/-- `np.mean` where the empty list matters: NaN (here `none`) on `[]`. -/
def meanOpt (l : List ℚ) : Option ℚ :=
  if l = [] then none else some (ratMean l)

/-- `np.mean(rescaled_curves, axis=0)` for curves of length `numPoints`. -/
def avgCurves (numPoints : ℕ) (curves : List (List ℚ)) : List ℚ :=
  (List.range numPoints).map (fun j => ratMean (curves.map (fun c => c.getD j 0)))

/-- The two `ValueError`s the processing core raises. -/
inductive PpError where
  | insufficientPeaks
  | noValidIntervals
  deriving DecidableEq

/-- The per-cycle value slices `ifr_df.loc[start_idx:end_idx, signal].values`
taken by the loop of `get_average_curve_between_diastolic_peaks`. -/
def extractedIntervals (df : List Row) (signal : Row → ℚ) : List (List ℚ) :=
  (consecPairs (diastolicIndices df)).map (fun p => (slice df p.1 p.2).map signal)

/-- The loop body of `get_average_curve_between_diastolic_peaks` after the
peak check: skip intervals shorter than 2, rescale the rest. -/
def rescaleStep (numPoints : ℕ) (intervals : List (List ℚ)) : List (List ℚ) :=
  (intervals.filter (fun l => decide (2 ≤ l.length))).map (rescaleCurve numPoints)

/-- The tail of `get_average_curve_between_diastolic_peaks`: rescale the
surviving intervals, fail when none survive, else average. -/
def averageFromIntervals (numPoints : ℕ) (intervals : List (List ℚ)) :
    Except PpError (List ℚ × List ℚ) :=
  let rescaled := rescaleStep numPoints intervals
  if rescaled = [] then .error .noValidIntervals
  else .ok (linspace01 numPoints, avgCurves numPoints rescaled)

/-- `get_average_curve_between_diastolic_peaks(ifr_df, signal, num_points)`:
returns `(avg_time, avg_curve)` or raises. -/
def get_average_curve_between_diastolic_peaks (df : List Row) (signal : Row → ℚ)
    (numPoints : ℕ) : Except PpError (List ℚ × List ℚ) :=
  if (diastolicIndices df).length < 2 then .error .insufficientPeaks
  else averageFromIntervals numPoints (extractedIntervals df signal)

/-- Sorted read with the index clipped into range, 0 on the empty list:
the `s[i]`/`s[i+1]` reads of linear-interpolation quantile, where the
`i+1` read only matters when `i+1` is in range. -/
def clampGet (s : List ℚ) (k : ℕ) : ℚ := s.getD (min k (s.length - 1)) 0

/-- Linear interpolation of a sorted value list at fractional position `p`
(`i = floor p`, result `s[i] + (p - i) * (s[i+1] - s[i])`). -/
def interpQ (s : List ℚ) (p : ℚ) : ℚ :=
  clampGet s (Int.floor p).toNat +
    (p - ((Int.floor p).toNat : ℚ)) *
      (clampGet s ((Int.floor p).toNat + 1) - clampGet s (Int.floor p).toNat)

/-- `Series.quantile(q)` with pandas' default linear interpolation: sort the
values, interpolate at position `q * (n - 1)`. -/
def quantile (l : List ℚ) (q : ℚ) : ℚ :=
  interpQ (l.insertionSort (· ≤ ·)) (q * ((l.length : ℚ) - 1))

/-- Models the `logger.warning` call of `split_df_by_pdpa`: it fires exactly
in the short-input branch. -/
def splitWarned (df : List Row) : Bool := df.length < 1000

/-- `split_df_by_pdpa(data)`: two full copies below 1000 samples, else the
strict lower-quartile and strict upper-quartile subframes. -/
def split_df_by_pdpa (df : List Row) : List Row × List Row :=
  if df.length < 1000 then (df, df)
  else
    (df.filter (fun r => decide (r.pdpa < quantile (df.map Row.pdpa) (1/4))),
     df.filter (fun r => decide (quantile (df.map Row.pdpa) (3/4) < r.pdpa)))

/-- `Series.first_valid_index()` over a slice whose first label is `i`:
the label of the first non-missing cell, if any. -/
def firstValidAux (ch : Row → Option ℚ) : List Row → ℕ → Option ℕ
  | [], _ => none
  | r :: t, i => if (ch r).isSome then some i else firstValidAux ch t (i + 1)

/-- `Series.last_valid_index()` over a slice whose first label is `i`. -/
def lastValidAux (ch : Row → Option ℚ) : List Row → ℕ → Option ℕ
  | [], _ => none
  | r :: t, i =>
    match lastValidAux ch t (i + 1) with
    | some k => some k
    | none => if (ch r).isSome then some i else none

/-- `df.loc[s:e, ch].first_valid_index()`. -/
def firstValidIn (df : List Row) (s e : ℕ) (ch : Row → Option ℚ) : Option ℕ :=
  firstValidAux ch (slice df s e) s

/-- `df.loc[s:e, ch].last_valid_index()`. -/
def lastValidIn (df : List Row) (s e : ℕ) (ch : Row → Option ℚ) : Option ℕ :=
  lastValidAux ch (slice df s e) s

/-- `(df.loc[k, 'time'] - start_t) / (end_t - start_t)` for the cycle with
boundary labels `s`, `e`. -/
def normTime (df : List Row) (s e k : ℕ) : ℚ :=
  ((rowAt df k).time - (rowAt df s).time) / ((rowAt df e).time - (rowAt df s).time)

/-- The `start_time_<ch>` list accumulated by the loop of `get_measurements`:
one normalized first-valid time per cycle that has one. -/
def startTimes (df : List Row) (ch : Row → Option ℚ) : List ℚ :=
  (consecPairs (diastolicIndices df)).filterMap
    (fun p => (firstValidIn df p.1 p.2 ch).map (fun k => normTime df p.1 p.2 k))

/-- The `end_time_<ch>` list accumulated by the loop of `get_measurements`. -/
def endTimes (df : List Row) (ch : Row → Option ℚ) : List ℚ :=
  (consecPairs (diastolicIndices df)).filterMap
    (fun p => (lastValidIn df p.1 p.2 ch).map (fun k => normTime df p.1 p.2 k))

/-- The 7-tuple returned by `get_measurements`. -/
structure Measurements where
  iFR_mean : ℚ
  mid_systolic_ratio_mean : ℚ
  pdpa_mean : ℚ
  start_time_aortic_mean : Option ℚ
  end_time_aortic_mean : Option ℚ
  start_time_diastolic_mean : Option ℚ
  end_time_diastolic_mean : Option ℚ
  deriving DecidableEq

/-- `get_measurements(data)`: whole-input column means plus the per-cycle
normalized first/last valid times of the two sparse ratio channels. -/
def get_measurements (df : List Row) : Except PpError Measurements :=
  if (diastolicIndices df).length < 2 then .error .insufficientPeaks
  else
    .ok
      { iFR_mean := ratMean (df.map Row.iFR)
        mid_systolic_ratio_mean := ratMean (df.map Row.mid_systolic_ratio)
        pdpa_mean := ratMean (df.map Row.pdpa)
        start_time_aortic_mean := meanOpt (startTimes df Row.aortic_ratio)
        end_time_aortic_mean := meanOpt (endTimes df Row.aortic_ratio)
        start_time_diastolic_mean := meanOpt (startTimes df Row.diastolic_ratio)
        end_time_diastolic_mean := meanOpt (endTimes df Row.diastolic_ratio) }

/-- Python's `needle in hay` substring test on character lists. -/
def strContains (hay needle : List Char) : Bool :=
  match hay with
  | [] => needle.isEmpty
  | _ :: t => needle.isPrefixOf hay || strContains t needle

/-- `'rest' if 'rest' in file_name else 'ado' if 'ade' in file_name else 'dobu'`. -/
def condLabel (file_name : List Char) : String :=
  if strContains file_name ("rest".toList) then "rest"
  else if strContains file_name ("ade".toList) then "ado"
  else "dobu"

/-- The `new_row` appended by `update_results_df`: patient id, the condition
suffix chosen for the three value columns, and the three means. -/
structure ResultRow where
  patient_id : List Char
  cond : String
  iFR_mean : ℚ
  mid_systolic_ratio_mean : ℚ
  pdpa_mean : ℚ
  deriving DecidableEq

/-- `update_results_df(data, file_name)` as a state transformer on the
accumulated `result_df`: measure, then append exactly one new row. -/
def update_results_df (acc : List ResultRow) (df : List Row) (file_name : List Char) :
    Except PpError (List ResultRow) := do
  let m ← get_measurements df
  pure (acc ++ [⟨file_name, condLabel file_name, m.iFR_mean,
                m.mid_systolic_ratio_mean, m.pdpa_mean⟩])

/-- The fallible computations run by `plot_average_curve` before any state
is touched: for each of the groups all/low/high, in order, the two average
curves and the measurements.  Rendering itself is effect-free bookkeeping. -/
def plotComputations (df : List Row) : Except PpError Unit := do
  let lo := (split_df_by_pdpa df).1
  let hi := (split_df_by_pdpa df).2
  let _ ← get_average_curve_between_diastolic_peaks df Row.p_aortic_smooth 100
  let _ ← get_average_curve_between_diastolic_peaks df Row.p_distal_smooth 100
  let _ ← get_measurements df
  let _ ← get_average_curve_between_diastolic_peaks lo Row.p_aortic_smooth 100
  let _ ← get_average_curve_between_diastolic_peaks lo Row.p_distal_smooth 100
  let _ ← get_measurements lo
  let _ ← get_average_curve_between_diastolic_peaks hi Row.p_aortic_smooth 100
  let _ ← get_average_curve_between_diastolic_peaks hi Row.p_distal_smooth 100
  let _ ← get_measurements hi
  pure ()

/-- `process_file`: plots first, then the report update; any raise aborts
before the accumulator is touched. -/
def process_file (acc : List ResultRow) (df : List Row) (file_name : List Char) :
    Except PpError (List ResultRow) := do
  let _ ← plotComputations df
  update_results_df acc df file_name

/-- The effect of one `process_file` call on the report accumulator: the new
accumulator and the propagated error, if any.  A raise leaves `self.result_df`
bound to its old value. -/
def processFileStep (acc : List ResultRow) (df : List Row) (file_name : List Char) :
    List ResultRow × Option PpError :=
  match process_file acc df file_name with
  | .ok out => (out, none)
  | .error e => (acc, some e)

instance : Inhabited Measurements := ⟨⟨0, 0, 0, none, none, none, none⟩⟩

/-- A concrete 8-sample recording with marker codes `[0,0,2,0,2,0,0,2]`,
strictly increasing times, and one isolated `aortic_ratio` value per cycle. -/
def sampleDf : List Row :=
  [⟨0, 10, 20, 1, 2, 1, 0, none, none⟩,
   ⟨1, 11, 21, 2, 4, 2, 0, none, none⟩,
   ⟨2, 12, 22, 3, 6, 3, 2, none, none⟩,
   ⟨3, 13, 23, 4, 8, 4, 0, some 1, none⟩,
   ⟨4, 14, 24, 5, 10, 5, 2, none, none⟩,
   ⟨5, 15, 25, 6, 12, 6, 0, none, none⟩,
   ⟨6, 16, 26, 7, 14, 7, 0, some 2, none⟩,
   ⟨7, 17, 27, 8, 16, 8, 2, none, none⟩]

/-- A 1000-sample recording, large enough for the quartile split to run. -/
def bigDf : List Row :=
  (List.range 1000).map (fun i : ℕ => { (default : Row) with pdpa := (i : ℚ) })

/-- The `(avg_time, avg_curve)` computed on the sample recording. -/
def sampleAvg : List ℚ × List ℚ :=
  ((get_average_curve_between_diastolic_peaks sampleDf Row.p_aortic_smooth 5).toOption).getD
    ([], [])

/-- The measurements computed on the sample recording. -/
def sampleMeas : Measurements :=
  ((get_measurements sampleDf).toOption).getD default

/-- The accumulator produced by one successful `process_file` call on the
sample recording, starting from an empty report. -/
def sampleOut : List ResultRow :=
  (process_file [] sampleDf ("pt1_rest".toList)).toOption.getD []

end PostProcessing

namespace PostProcessing

/-! ### Supporting lemmas -/

lemma getD_of_getElem? {α : Type _} {l : List α} {n : ℕ} {a : α} (d : α)
    (h : l[n]? = some a) : l.getD n d = a := by
  simp [List.getD_eq_getElem?_getD, h]

lemma consecPairs_length : ∀ l : List ℕ, (consecPairs l).length = l.length - 1
  | [] => rfl
  | [_] => rfl
  | a :: b :: rest => by
    have ih := consecPairs_length (b :: rest)
    simp [consecPairs] at ih ⊢
    omega

lemma mem_consecPairs : ∀ {l : List ℕ} {p : ℕ × ℕ}, p ∈ consecPairs l → p.1 ∈ l ∧ p.2 ∈ l
  | [], _, h => by simp [consecPairs] at h
  | [_], _, h => by simp [consecPairs] at h
  | a :: b :: rest, p, h => by
    simp only [consecPairs, List.mem_cons] at h
    rcases h with h | h
    · subst h; simp
    · have := mem_consecPairs h
      exact ⟨List.mem_cons_of_mem _ this.1, List.mem_cons_of_mem _ this.2⟩

lemma consecPairs_fst_lt : ∀ {l : List ℕ}, l.Pairwise (· < ·) →
    ∀ {p : ℕ × ℕ}, p ∈ consecPairs l → p.1 < p.2
  | [], _, _, h => by simp [consecPairs] at h
  | [_], _, _, h => by simp [consecPairs] at h
  | a :: b :: rest, hl, p, h => by
    simp only [consecPairs, List.mem_cons] at h
    rcases h with h | h
    · subst h; exact (List.pairwise_cons.mp hl).1 b (by simp)
    · exact consecPairs_fst_lt (List.pairwise_cons.mp hl).2 h

lemma consecPairs_getD : ∀ (l : List ℕ) (j : ℕ), j + 1 < l.length →
    (consecPairs l).getD j (0, 0) = (l.getD j 0, l.getD (j + 1) 0)
  | [], j, h => by simp at h
  | [_], j, h => by simp at h
  | _ :: _ :: _, 0, _ => rfl
  | a :: b :: rest, j + 1, h => by
    have ih := consecPairs_getD (b :: rest) j (by simp at h ⊢; omega)
    simpa [consecPairs] using ih

lemma diastolicIndices_pairwise (df : List Row) :
    (diastolicIndices df).Pairwise (· < ·) :=
  List.Pairwise.filter _ (List.pairwise_lt_range _)

lemma mem_diastolicIndices_lt {df : List Row} {i : ℕ} (h : i ∈ diastolicIndices df) :
    i < df.length := by
  have := List.mem_of_mem_filter h
  simpa using this

lemma diastolicIndices_count : ∀ df : List Row,
    (diastolicIndices df).length = df.countP (fun r => r.peaks == 2)
  | [] => rfl
  | r :: t => by
    have ih := diastolicIndices_count t
    unfold diastolicIndices at ih ⊢
    rw [List.length_cons, List.range_succ_eq_map, List.filter_cons, List.filter_map]
    have hcomp : ∀ i ∈ List.range t.length,
        ((fun i => (rowAt (r :: t) i).peaks == 2) ∘ Nat.succ) i
          = (fun i => (rowAt t i).peaks == 2) i := by
      intro i _
      simp [Function.comp, rowAt]
    rw [List.filter_congr hcomp]
    rw [List.countP_cons]
    have h0 : (rowAt (r :: t) 0).peaks = r.peaks := by simp [rowAt]
    by_cases hr : r.peaks = 2
    · simp [h0, hr, ih]
    · simp [h0, hr, ih]

lemma slice_length {df : List Row} {s e : ℕ} (hse : s ≤ e) (he : e < df.length) :
    (slice df s e).length = e - s + 1 := by
  simp only [slice, List.length_take, List.length_drop]
  omega

lemma slice_getElem? {df : List Row} {s e j : ℕ} (hj : j < e - s + 1) :
    (slice df s e)[j]? = df[s + j]? := by
  simp [slice, List.getElem?_take, List.getElem?_drop, hj]

lemma slice_getD_zero {df : List Row} {s e : ℕ} :
    (slice df s e).getD 0 default = rowAt df s := by
  have h0 : (slice df s e)[0]? = df[s]? := by
    simpa using @slice_getElem? df s e 0 (by omega)
  simp [rowAt, List.getD_eq_getElem?_getD, h0]

lemma slice_getD_last {df : List Row} {s e : ℕ} (hse : s ≤ e) (he : e < df.length) :
    (slice df s e).getD ((slice df s e).length - 1) default = rowAt df e := by
  rw [slice_length hse he]
  have h1 : (slice df s e)[e - s]? = df[s + (e - s)]? := slice_getElem? (by omega)
  have h2 : s + (e - s) = e := by omega
  rw [h2] at h1
  have h3 : e - s + 1 - 1 = e - s := by omega
  rw [h3]
  simp [rowAt, List.getD_eq_getElem?_getD, h1]

lemma linspace01_length (n : ℕ) : (linspace01 n).length = n := by
  simp only [linspace01, List.length_map, List.length_range]

lemma cast_pred_div_self {n : ℕ} (hn : 2 ≤ n) :
    (((n - 1 : ℕ) : ℚ)) / ((n : ℚ) - 1) = 1 := by
  have h1 : ((n - 1 : ℕ) : ℚ) = (n : ℚ) - 1 := by
    rw [Nat.cast_sub (by omega)]
    simp
  have h2 : (2 : ℚ) ≤ (n : ℚ) := by exact_mod_cast hn
  rw [h1, div_self (by intro h; linarith)]

lemma linspace01_getElem? {n j : ℕ} (hj : j < n) (hn : 2 ≤ n) :
    (linspace01 n)[j]? = some ((j : ℚ) / ((n : ℚ) - 1)) := by
  have h1 : ¬ n ≤ 1 := by omega
  simp only [linspace01, List.getElem?_map, List.getElem?_range hj]
  simp [h1]

lemma linspace01_getElem?_zero {n : ℕ} (hn : 2 ≤ n) : (linspace01 n)[0]? = some 0 := by
  rw [linspace01_getElem? (by omega) hn]
  norm_num

lemma linspace01_getElem?_last {n : ℕ} (hn : 2 ≤ n) :
    (linspace01 n)[n - 1]? = some 1 := by
  rw [linspace01_getElem? (by omega) hn, cast_pred_div_self hn]

lemma interpSeg_head (x : ℚ) (l : List (ℚ × ℚ)) (hl : l ≠ [])
    (hx : x ≤ (l.getD 0 (0, 0)).1) : interpSeg x l = (l.getD 0 (0, 0)).2 := by
  match l with
  | [] => exact absurd rfl hl
  | [a] => simp [interpSeg]
  | a :: b :: rest =>
    simp only [List.getD_cons_zero] at hx ⊢
    simp only [interpSeg]
    rw [if_pos hx]

lemma interpSeg_ge_last (x : ℚ) :
    ∀ l : List (ℚ × ℚ), l ≠ [] →
      (∀ p ∈ l.dropLast, p.1 < x) → (l.getD (l.length - 1) (0, 0)).1 ≤ x →
      interpSeg x l = (l.getD (l.length - 1) (0, 0)).2
  | [], hl, _, _ => absurd rfl hl
  | [a], _, _, _ => by simp [interpSeg]
  | a :: b :: rest, _, hdrop, hlast => by
    have ha : a.1 < x := hdrop a (by simp)
    simp only [interpSeg]
    rw [if_neg (not_le.mpr ha)]
    match rest with
    | [] =>
      simp only [List.length_cons, List.length_nil] at hlast ⊢
      simp only [List.getD_cons_succ, List.getD_cons_zero] at hlast ⊢
      by_cases hxb : x ≤ b.1
      · have hbe : b.1 = x := le_antisymm hlast hxb
        rw [if_pos hxb, hbe, mul_div_assoc, div_self (sub_ne_zero.mpr ha.ne'), mul_one]
        ring
      · rw [if_neg hxb]
        simp [interpSeg]
    | c :: r2 =>
      have hb : b.1 < x := hdrop b (by simp)
      rw [if_neg (not_le.mpr hb)]
      have hlast' : ((b :: c :: r2).getD ((b :: c :: r2).length - 1) (0, 0)).1 ≤ x := by
        simpa [List.getD_cons_succ] using hlast
      have ih := interpSeg_ge_last x (b :: c :: r2) (by simp)
        (fun p hp => hdrop p (by simp at hp ⊢; tauto)) hlast'
      rw [ih]
      simp [List.getD_cons_succ]

lemma zip_linspace_getElem? {data : List ℚ} {j : ℕ}
    (hj : j < data.length) (hd : 2 ≤ data.length) :
    ((linspace01 data.length).zip data)[j]?
      = some ((j : ℚ) / ((data.length : ℚ) - 1), data.getD j 0) := by
  rw [List.getElem?_zip_eq_some]
  constructor
  · exact linspace01_getElem? hj hd
  · simp [List.getD_eq_getElem?_getD, List.getElem?_eq_getElem hj]

lemma rescaleCurve_length (numPoints : ℕ) (data : List ℚ) :
    (rescaleCurve numPoints data).length = numPoints := by
  simp [rescaleCurve, linspace01_length]

lemma rescaleCurve_getD_zero {numPoints : ℕ} {data : List ℚ}
    (hn : 2 ≤ numPoints) (hd : 2 ≤ data.length) :
    (rescaleCurve numPoints data).getD 0 0 = data.getD 0 0 := by
  have h0 : (rescaleCurve numPoints data)[0]?
      = some (interpSeg 0 ((linspace01 data.length).zip data)) := by
    simp only [rescaleCurve, List.getElem?_map]
    rw [linspace01_getElem?_zero hn]
    rfl
  rw [getD_of_getElem? 0 h0]
  have hzs0 : ((linspace01 data.length).zip data)[0]? = some (0, data.getD 0 0) := by
    rw [zip_linspace_getElem? (by omega) hd]
    norm_num
  have hgd : ((linspace01 data.length).zip data).getD 0 (0, 0) = (0, data.getD 0 0) :=
    getD_of_getElem? _ hzs0
  have hne : (linspace01 data.length).zip data ≠ [] := by
    intro h
    rw [h] at hzs0
    simp at hzs0
  rw [interpSeg_head 0 _ hne (by rw [hgd]), hgd]

lemma rescaleCurve_getD_last {numPoints : ℕ} {data : List ℚ}
    (hn : 2 ≤ numPoints) (hd : 2 ≤ data.length) :
    (rescaleCurve numPoints data).getD (numPoints - 1) 0
      = data.getD (data.length - 1) 0 := by
  have h0 : (rescaleCurve numPoints data)[numPoints - 1]?
      = some (interpSeg 1 ((linspace01 data.length).zip data)) := by
    simp only [rescaleCurve, List.getElem?_map]
    rw [linspace01_getElem?_last hn]
    rfl
  rw [getD_of_getElem? 0 h0]
  set zs := (linspace01 data.length).zip data with hzs
  have hzslen : zs.length = data.length := by
    simp [hzs, List.length_zip, linspace01_length]
  have hlastel : zs.getD (zs.length - 1) (0, 0) = (1, data.getD (data.length - 1) 0) := by
    apply getD_of_getElem?
    rw [hzslen, hzs, zip_linspace_getElem? (by omega) hd, cast_pred_div_self hd]
  have hne : zs ≠ [] := by
    intro h
    rw [h] at hzslen
    simp at hzslen
    omega
  have hdrop : ∀ p ∈ zs.dropLast, p.1 < 1 := by
    intro p hp
    obtain ⟨j, hjlen, hj⟩ := List.mem_iff_getElem.mp hp
    rw [List.getElem_dropLast] at hj
    have hjlt : j < data.length - 1 := by
      have := hjlen
      rw [List.length_dropLast, hzslen] at this
      omega
    have hjq : zs[j]? = some ((j : ℚ) / ((data.length : ℚ) - 1), data.getD j 0) := by
      rw [hzs]
      exact zip_linspace_getElem? (by omega) hd
    have hjel : zs[j] = ((j : ℚ) / ((data.length : ℚ) - 1), data.getD j 0) := by
      have h1 := @List.getElem?_eq_getElem _ zs j (by rw [hzslen]; omega)
      rw [h1] at hjq
      exact Option.some.inj hjq
    rw [← hj, hjel]
    have hcast : (j : ℚ) < (data.length : ℚ) - 1 := by
      have h2 : (j : ℚ) + 1 ≤ ((data.length - 1 : ℕ) : ℚ) := by
        exact_mod_cast hjlt
      rw [Nat.cast_sub (by omega)] at h2
      push_cast at h2
      linarith
    have hpos : (0 : ℚ) < (data.length : ℚ) - 1 := by
      have : (2 : ℚ) ≤ (data.length : ℚ) := by exact_mod_cast hd
      linarith
    exact (div_lt_one hpos).mpr hcast
  rw [interpSeg_ge_last 1 zs hne hdrop (by rw [hlastel]), hlastel]

lemma avgCurves_length (numPoints : ℕ) (curves : List (List ℚ)) :
    (avgCurves numPoints curves).length = numPoints := by
  simp [avgCurves]

lemma avgCurves_getD {numPoints j : ℕ} (hj : j < numPoints) (curves : List (List ℚ)) :
    (avgCurves numPoints curves).getD j 0
      = ratMean (curves.map (fun c => c.getD j 0)) := by
  apply getD_of_getElem?
  simp [avgCurves, List.getElem?_map, List.getElem?_range hj]

lemma firstValidAux_bounds (ch : Row → Option ℚ) :
    ∀ (l : List Row) (i k : ℕ), firstValidAux ch l i = some k → i ≤ k ∧ k < i + l.length
  | [], i, k, h => by simp [firstValidAux] at h
  | r :: t, i, k, h => by
    simp only [firstValidAux] at h
    by_cases hr : (ch r).isSome
    · rw [if_pos hr] at h
      injection h with hk
      subst hk
      simp
    · rw [if_neg hr] at h
      have := firstValidAux_bounds ch t (i + 1) k h
      simp only [List.length_cons]
      omega

lemma lastValidAux_bounds (ch : Row → Option ℚ) :
    ∀ (l : List Row) (i k : ℕ), lastValidAux ch l i = some k → i ≤ k ∧ k < i + l.length
  | [], i, k, h => by simp [lastValidAux] at h
  | r :: t, i, k, h => by
    simp only [lastValidAux] at h
    cases hrec : lastValidAux ch t (i + 1) with
    | some k2 =>
      rw [hrec] at h
      injection h with hk
      subst hk
      have := lastValidAux_bounds ch t (i + 1) k2 hrec
      simp only [List.length_cons]
      omega
    | none =>
      rw [hrec] at h
      by_cases hr : (ch r).isSome
      · rw [if_pos hr] at h
        injection h with hk
        subst hk
        simp
      · rw [if_neg hr] at h
        exact absurd h (by simp)

lemma ratMean_unit {l : List ℚ} (hne : l ≠ []) (h : ∀ x ∈ l, 0 ≤ x ∧ x ≤ 1) :
    0 ≤ ratMean l ∧ ratMean l ≤ 1 := by
  have hlen : 0 < (l.length : ℚ) := by
    have : 0 < l.length := List.length_pos.mpr hne
    exact_mod_cast this
  constructor
  · exact div_nonneg (List.sum_nonneg fun x hx => (h x hx).1) hlen.le
  · rw [ratMean, div_le_one hlen]
    have := List.sum_le_card_nsmul l 1 (fun x hx => (h x hx).2)
    simpa using this

lemma mem_startTimes {df : List Row} {ch : Row → Option ℚ} {x : ℚ}
    (hx : x ∈ startTimes df ch) :
    ∃ p ∈ consecPairs (diastolicIndices df), ∃ k,
      firstValidIn df p.1 p.2 ch = some k ∧ x = normTime df p.1 p.2 k := by
  simp only [startTimes, List.mem_filterMap] at hx
  obtain ⟨p, hp, hmap⟩ := hx
  cases hfv : firstValidIn df p.1 p.2 ch with
  | none => rw [hfv] at hmap; simp at hmap
  | some k =>
    rw [hfv] at hmap
    simp only [Option.map_some'] at hmap
    injection hmap with hk
    exact ⟨p, hp, k, hfv, hk.symm⟩

lemma mem_endTimes {df : List Row} {ch : Row → Option ℚ} {x : ℚ}
    (hx : x ∈ endTimes df ch) :
    ∃ p ∈ consecPairs (diastolicIndices df), ∃ k,
      lastValidIn df p.1 p.2 ch = some k ∧ x = normTime df p.1 p.2 k := by
  simp only [endTimes, List.mem_filterMap] at hx
  obtain ⟨p, hp, hmap⟩ := hx
  cases hfv : lastValidIn df p.1 p.2 ch with
  | none => rw [hfv] at hmap; simp at hmap
  | some k =>
    rw [hfv] at hmap
    simp only [Option.map_some'] at hmap
    injection hmap with hk
    exact ⟨p, hp, k, hfv, hk.symm⟩

lemma rowAt_eq_get {df : List Row} {i : ℕ} (h : i < df.length) :
    rowAt df i = df.get ⟨i, h⟩ := by
  simp [rowAt, List.getD_eq_getElem?_getD, List.getElem?_eq_getElem h]

lemma normTime_unit {df : List Row} (hmono : df.Pairwise (fun a b => a.time < b.time))
    {s e k : ℕ} (hse : s < e) (he : e < df.length) (hsk : s ≤ k) (hke : k ≤ e) :
    0 ≤ normTime df s e k ∧ normTime df s e k ≤ 1 := by
  have hidx : ∀ i j, i < j → j < df.length → (rowAt df i).time < (rowAt df j).time := by
    intro i j hij hj
    have hi : i < df.length := lt_trans hij hj
    have hp := List.pairwise_iff_get.mp hmono ⟨i, hi⟩ ⟨j, hj⟩ hij
    rw [rowAt_eq_get hi, rowAt_eq_get hj]
    exact hp
  have hmle : ∀ i j, i ≤ j → j < df.length → (rowAt df i).time ≤ (rowAt df j).time := by
    intro i j hij hj
    rcases eq_or_lt_of_le hij with rfl | hlt
    · exact le_refl _
    · exact (hidx i j hlt hj).le
  have hden : 0 < (rowAt df e).time - (rowAt df s).time :=
    sub_pos.mpr (hidx s e hse he)
  have h1 : (rowAt df s).time ≤ (rowAt df k).time :=
    hmle s k hsk (lt_of_le_of_lt hke he)
  have h2 : (rowAt df k).time ≤ (rowAt df e).time := hmle k e hke he
  constructor
  · exact div_nonneg (sub_nonneg.mpr h1) hden.le
  · rw [normTime, div_le_one hden]
    linarith

lemma startTimes_unit {df : List Row} {ch : Row → Option ℚ}
    (hmono : df.Pairwise (fun a b => a.time < b.time)) :
    ∀ x ∈ startTimes df ch, 0 ≤ x ∧ x ≤ 1 := by
  intro x hx
  obtain ⟨p, hp, k, hfv, rfl⟩ := mem_startTimes hx
  have h1 : p.1 < p.2 := consecPairs_fst_lt (diastolicIndices_pairwise df) hp
  have h2 : p.2 < df.length := mem_diastolicIndices_lt (mem_consecPairs hp).2
  have hk := firstValidAux_bounds ch (slice df p.1 p.2) p.1 k hfv
  rw [slice_length h1.le h2] at hk
  exact normTime_unit hmono h1 h2 hk.1 (by omega)

lemma endTimes_unit {df : List Row} {ch : Row → Option ℚ}
    (hmono : df.Pairwise (fun a b => a.time < b.time)) :
    ∀ x ∈ endTimes df ch, 0 ≤ x ∧ x ≤ 1 := by
  intro x hx
  obtain ⟨p, hp, k, hfv, rfl⟩ := mem_endTimes hx
  have h1 : p.1 < p.2 := consecPairs_fst_lt (diastolicIndices_pairwise df) hp
  have h2 : p.2 < df.length := mem_diastolicIndices_lt (mem_consecPairs hp).2
  have hk := lastValidAux_bounds ch (slice df p.1 p.2) p.1 k hfv
  rw [slice_length h1.le h2] at hk
  exact normTime_unit hmono h1 h2 hk.1 (by omega)

lemma clampGet_mono {s : List ℚ} (hs : List.Sorted (· ≤ ·) s) {j k : ℕ} (hjk : j ≤ k) :
    clampGet s j ≤ clampGet s k := by
  cases hlen : s.length with
  | zero =>
    have hnil : s = [] := List.length_eq_zero.mp hlen
    simp [clampGet, hnil]
  | succ n =>
    have hj : min j (s.length - 1) < s.length := by omega
    have hk : min k (s.length - 1) < s.length := by omega
    have hm : min j (s.length - 1) ≤ min k (s.length - 1) := by omega
    have hgj : s.getD (min j (s.length - 1)) 0 = s.get ⟨min j (s.length - 1), hj⟩ := by
      simp [List.getD_eq_getElem?_getD, List.getElem?_eq_getElem hj]
    have hgk : s.getD (min k (s.length - 1)) 0 = s.get ⟨min k (s.length - 1), hk⟩ := by
      simp [List.getD_eq_getElem?_getD, List.getElem?_eq_getElem hk]
    rcases eq_or_lt_of_le hm with heq | hlt
    · rw [clampGet, clampGet, heq]
    · rw [clampGet, clampGet, hgj, hgk]
      exact List.pairwise_iff_get.mp hs ⟨_, hj⟩ ⟨_, hk⟩ hlt

lemma interpQ_between {s : List ℚ} (hs : List.Sorted (· ≤ ·) s) {p : ℚ} (hp : 0 ≤ p) :
    clampGet s (Int.floor p).toNat ≤ interpQ s p ∧
    interpQ s p ≤ clampGet s ((Int.floor p).toNat + 1) := by
  have hofl : (((Int.floor p).toNat : ℤ) : ℚ) = ((Int.floor p : ℤ) : ℚ) := by
    rw [Int.toNat_of_nonneg (Int.floor_nonneg.mpr hp)]
  have hcast : (((Int.floor p).toNat : ℕ) : ℚ) = ((Int.floor p : ℤ) : ℚ) := by
    push_cast at hofl ⊢
    exact hofl
  have hfrac0 : 0 ≤ p - (((Int.floor p).toNat : ℕ) : ℚ) := by
    rw [hcast, Int.self_sub_floor]
    exact Int.fract_nonneg p
  have hfrac1 : p - (((Int.floor p).toNat : ℕ) : ℚ) < 1 := by
    rw [hcast, Int.self_sub_floor]
    exact Int.fract_lt_one p
  have hd : 0 ≤ clampGet s ((Int.floor p).toNat + 1) - clampGet s (Int.floor p).toNat :=
    sub_nonneg.mpr (clampGet_mono hs (by omega))
  constructor
  · rw [interpQ]
    have := mul_nonneg hfrac0 hd
    linarith
  · rw [interpQ]
    have := mul_le_mul_of_nonneg_right hfrac1.le hd
    linarith

lemma interpQ_mono {s : List ℚ} (hs : List.Sorted (· ≤ ·) s) {p q : ℚ}
    (hp : 0 ≤ p) (hpq : p ≤ q) : interpQ s p ≤ interpQ s q := by
  have hq : 0 ≤ q := le_trans hp hpq
  have hij : (Int.floor p).toNat ≤ (Int.floor q).toNat :=
    Int.toNat_le_toNat (Int.floor_mono hpq)
  rcases eq_or_lt_of_le hij with heq | hlt
  · have hd : 0 ≤ clampGet s ((Int.floor p).toNat + 1) - clampGet s (Int.floor p).toNat :=
      sub_nonneg.mpr (clampGet_mono hs (by omega))
    rw [interpQ, interpQ, ← heq]
    have hprod : (p - (((Int.floor p).toNat : ℕ) : ℚ))
          * (clampGet s ((Int.floor p).toNat + 1) - clampGet s (Int.floor p).toNat)
        ≤ (q - (((Int.floor p).toNat : ℕ) : ℚ))
          * (clampGet s ((Int.floor p).toNat + 1) - clampGet s (Int.floor p).toNat) :=
      mul_le_mul_of_nonneg_right (by linarith) hd
    linarith
  · have h1 := (interpQ_between hs hp).2
    have h2 := (interpQ_between hs hq).1
    have h3 : clampGet s ((Int.floor p).toNat + 1) ≤ clampGet s (Int.floor q).toNat :=
      clampGet_mono hs (by omega)
    linarith

lemma quantile_mono {l : List ℚ} (hl : 1 ≤ l.length) {q1 q2 : ℚ}
    (h0 : 0 ≤ q1) (h12 : q1 ≤ q2) : quantile l q1 ≤ quantile l q2 := by
  have hlen1 : (1 : ℚ) ≤ (l.length : ℚ) := by exact_mod_cast hl
  apply interpQ_mono (List.sorted_insertionSort _ l)
  · exact mul_nonneg h0 (by linarith)
  · exact mul_le_mul_of_nonneg_right h12 (by linarith)

/-! ### Claims -/

/-- C2: segmentation yields exactly one cycle fewer than the number of
diastolic markers, the `j`-th cycle's boundaries are the `j`-th and
`(j+1)`-th marker indices in index order, and on marker codes
`[0,0,2,0,2,0,0,2]` the cycles are exactly `(2,4)` and `(4,7)`. -/
theorem claim_C2 (df : List Row) (j : ℕ) (hj : j + 1 < (diastolicIndices df).length) :
    (consecPairs (diastolicIndices df)).length = (diastolicIndices df).length - 1 ∧
    (consecPairs (diastolicIndices df)).getD j (0, 0)
      = ((diastolicIndices df).getD j 0, (diastolicIndices df).getD (j + 1) 0) ∧
    consecPairs (diastolicIndices sampleDf) = [(2, 4), (4, 7)] := by
  refine ⟨consecPairs_length _, consecPairs_getD _ j hj, by decide⟩

/-- C2 witness: the general part applied to the sample recording at `j = 0`. -/
theorem claim_C2_witness :
    (consecPairs (diastolicIndices sampleDf)).length = (diastolicIndices sampleDf).length - 1 ∧
    (consecPairs (diastolicIndices sampleDf)).getD 0 (0, 0)
      = ((diastolicIndices sampleDf).getD 0 0, (diastolicIndices sampleDf).getD 1 0) ∧
    consecPairs (diastolicIndices sampleDf) = [(2, 4), (4, 7)] :=
  claim_C2 sampleDf 0 (by decide)

/-- C3: with 0 or 1 occurrences of the diastolic marker code 2, both
`get_average_curve_between_diastolic_peaks` and `get_measurements` raise the
insufficient-peaks error instead of returning a value. -/
theorem claim_C3 (df : List Row) (signal : Row → ℚ) (numPoints : ℕ)
    (hcount : df.countP (fun r => r.peaks == 2) ≤ 1) :
    get_average_curve_between_diastolic_peaks df signal numPoints
      = .error .insufficientPeaks ∧
    get_measurements df = .error .insufficientPeaks := by
  have hlen : (diastolicIndices df).length < 2 := by
    rw [diastolicIndices_count]; omega
  constructor
  · simp [get_average_curve_between_diastolic_peaks, hlen]
  · simp [get_measurements, hlen]

/-- C3 witness: a one-marker recording makes both entry points fail. -/
theorem claim_C3_witness :
    get_average_curve_between_diastolic_peaks
        [({ (default : Row) with peaks := 2 })] Row.p_aortic_smooth 100
      = .error .insufficientPeaks ∧
    get_measurements [({ (default : Row) with peaks := 2 })]
      = .error .insufficientPeaks :=
  claim_C3 _ _ _ (by decide)

/-- C8: the condition label is decided by substring matches in fixed order:
`"rest"` wins, then the adenosine marker `"ade"`, then the dobutamine default
`"dobu"` with no unmatched case. -/
theorem claim_C8 (fn : List Char) :
    (strContains fn ("rest".toList) = true → condLabel fn = "rest") ∧
    (strContains fn ("rest".toList) = false → strContains fn ("ade".toList) = true →
      condLabel fn = "ado") ∧
    (strContains fn ("rest".toList) = false → strContains fn ("ade".toList) = false →
      condLabel fn = "dobu") := by
  have hr : ("rest".toList) = ['r', 'e', 's', 't'] := rfl
  have ha : ("ade".toList) = ['a', 'd', 'e'] := rfl
  rw [hr, ha]
  refine ⟨fun h => ?_, fun h1 h2 => ?_, fun h1 h2 => ?_⟩ <;>
    simp [condLabel, hr, ha, *]

/-- C4: in curve averaging, intervals shorter than 2 samples contribute
nothing (dropping them leaves the result unchanged), and when no interval
survives the filter the call fails with the no-valid-intervals error; the
entry point runs exactly this step on the extracted cycle slices once the
peak check has passed. -/
theorem claim_C4 (df : List Row) (signal : Row → ℚ) (numPoints : ℕ)
    (intervals : List (List ℚ)) :
    averageFromIntervals numPoints intervals
      = averageFromIntervals numPoints
          (intervals.filter (fun l => decide (2 ≤ l.length))) ∧
    ((∀ l ∈ intervals, l.length < 2) →
      averageFromIntervals numPoints intervals = .error .noValidIntervals) ∧
    (2 ≤ (diastolicIndices df).length →
      get_average_curve_between_diastolic_peaks df signal numPoints
        = averageFromIntervals numPoints (extractedIntervals df signal)) := by
  refine ⟨?_, fun hshort => ?_, fun hpk => ?_⟩
  · simp [averageFromIntervals, rescaleStep, List.filter_filter]
  · have hnil : intervals.filter (fun l => decide (2 ≤ l.length)) = [] := by
      rw [List.filter_eq_nil_iff]
      intro l hl
      simpa using Nat.not_le.mpr (hshort l hl)
    simp [averageFromIntervals, rescaleStep, hnil]
  · simp [get_average_curve_between_diastolic_peaks, Nat.not_lt.mpr hpk]

/-- C4 witness: two degenerate one-sample intervals are both skipped and the
averaging step fails. -/
theorem claim_C4_witness :
    averageFromIntervals 100 [[1], [2]] = .error .noValidIntervals ∧
    get_average_curve_between_diastolic_peaks sampleDf Row.p_aortic_smooth 100
      = averageFromIntervals 100 (extractedIntervals sampleDf Row.p_aortic_smooth) :=
  ⟨(claim_C4 [] Row.p_aortic_smooth 100 [[1], [2]]).2.1 (by decide),
   (claim_C4 sampleDf Row.p_aortic_smooth 100 []).2.2 (by decide)⟩

/-- C7: the first three components of the measurement tuple are the plain
column-wise arithmetic means of `iFR`, `mid_systolic_ratio` and `pd/pa` over
all samples of the input. -/
theorem claim_C7 (df : List Row) (m : Measurements)
    (h : get_measurements df = .ok m) :
    m.iFR_mean = (df.map Row.iFR).sum / (df.length : ℚ) ∧
    m.mid_systolic_ratio_mean = (df.map Row.mid_systolic_ratio).sum / (df.length : ℚ) ∧
    m.pdpa_mean = (df.map Row.pdpa).sum / (df.length : ℚ) := by
  unfold get_measurements at h
  split at h
  · exact absurd h (by simp)
  · injection h with hm
    subst hm
    refine ⟨?_, ?_, ?_⟩ <;> simp [ratMean]

/-- C7 witness: the sample recording's tuple starts with the three whole-input
column means. -/
theorem claim_C7_witness :
    sampleMeas.iFR_mean = (sampleDf.map Row.iFR).sum / (sampleDf.length : ℚ) ∧
    sampleMeas.mid_systolic_ratio_mean
      = (sampleDf.map Row.mid_systolic_ratio).sum / (sampleDf.length : ℚ) ∧
    sampleMeas.pdpa_mean = (sampleDf.map Row.pdpa).sum / (sampleDf.length : ℚ) :=
  claim_C7 sampleDf sampleMeas (by rfl)

/-- C9: a fatal error from any part of the per-file pipeline leaves the
report accumulator unchanged, and a row is appended exactly on success: the
new accumulator is the old one with exactly one row added at the end, built
from the whole-input measurements, with every existing row untouched. -/
theorem claim_C9 (acc : List ResultRow) (df : List Row) (fn : List Char) :
    (∀ e, process_file acc df fn = .error e → processFileStep acc df fn = (acc, some e)) ∧
    (∀ out, process_file acc df fn = .ok out →
      (∃ m, get_measurements df = .ok m ∧
        out = acc ++ [⟨fn, condLabel fn, m.iFR_mean, m.mid_systolic_ratio_mean,
                       m.pdpa_mean⟩]) ∧
      out.take acc.length = acc ∧ out.length = acc.length + 1 ∧
      processFileStep acc df fn = (out, none)) := by
  constructor
  · intro e h
    simp [processFileStep, h]
  · intro out h
    have hupd : update_results_df acc df fn = .ok out := by
      unfold process_file at h
      cases hplot : plotComputations df with
      | error e => rw [hplot] at h; exact absurd h (by simp [Bind.bind, Except.bind])
      | ok u => rw [hplot] at h; simpa [Bind.bind, Except.bind] using h
    have hmeas : ∃ m, get_measurements df = .ok m ∧
        out = acc ++ [⟨fn, condLabel fn, m.iFR_mean, m.mid_systolic_ratio_mean,
                       m.pdpa_mean⟩] := by
      unfold update_results_df at hupd
      cases hm : get_measurements df with
      | error e => rw [hm] at hupd; exact absurd hupd (by simp [Bind.bind, Except.bind])
      | ok m =>
        rw [hm] at hupd
        have := hupd.symm
        simp only [Bind.bind, Except.bind, pure, Except.pure] at this
        exact ⟨m, rfl, by injection this⟩
    obtain ⟨m, hm, hout⟩ := hmeas
    refine ⟨⟨m, hm, hout⟩, ?_, ?_, ?_⟩
    · rw [hout]; exact List.take_left _ _
    · rw [hout]; simp
    · simp [processFileStep, h]

/-- C9 witness: an empty recording has no diastolic markers, the pipeline
fails, and the accumulator is returned unchanged with the error; on the
sample recording the pipeline succeeds and appends exactly one row. -/
theorem claim_C9_witness :
    processFileStep [] [] ("pt1_rest".toList)
      = ([], some PpError.insufficientPeaks) ∧
    sampleOut.take 0 = [] ∧ sampleOut.length = 0 + 1 ∧
    processFileStep [] sampleDf ("pt1_rest".toList) = (sampleOut, none) :=
  ⟨(claim_C9 [] [] _).1 _ (by rfl),
   ((claim_C9 [] sampleDf ("pt1_rest".toList)).2 sampleOut (by rfl)).2.1,
   ((claim_C9 [] sampleDf ("pt1_rest".toList)).2 sampleOut (by rfl)).2.2.1,
   ((claim_C9 [] sampleDf ("pt1_rest".toList)).2 sampleOut (by rfl)).2.2.2⟩

/-- C1: for a successful run with `num_points ≥ 2`, the averaged curve has
exactly `num_points` entries, its first entry is the arithmetic mean of the
retained cycles' first raw samples of the chosen channel, and its last entry
is the mean of their last raw samples. -/
theorem claim_C1 (df : List Row) (signal : Row → ℚ) (numPoints : ℕ)
    (h2 : 2 ≤ numPoints) (t curve : List ℚ)
    (hres : get_average_curve_between_diastolic_peaks df signal numPoints
      = .ok (t, curve)) :
    curve.length = numPoints ∧
    curve.getD 0 0
      = ratMean (((extractedIntervals df signal).filter
          (fun l => decide (2 ≤ l.length))).map (fun l => l.getD 0 0)) ∧
    curve.getD (numPoints - 1) 0
      = ratMean (((extractedIntervals df signal).filter
          (fun l => decide (2 ≤ l.length))).map
            (fun l => l.getD (l.length - 1) 0)) := by
  rw [get_average_curve_between_diastolic_peaks] at hres
  by_cases hpk : (diastolicIndices df).length < 2
  · rw [if_pos hpk] at hres
    exact absurd hres (by simp)
  rw [if_neg hpk] at hres
  simp only [averageFromIntervals] at hres
  by_cases hnil : rescaleStep numPoints (extractedIntervals df signal) = []
  · rw [if_pos hnil] at hres
    exact absurd hres (by simp)
  rw [if_neg hnil] at hres
  injection hres with hpair
  injection hpair with ht hcurve
  subst hcurve
  have hmem : ∀ l ∈ (extractedIntervals df signal).filter
      (fun l => decide (2 ≤ l.length)), 2 ≤ l.length := by
    intro l hl
    simpa using (List.mem_filter.mp hl).2
  refine ⟨avgCurves_length _ _, ?_, ?_⟩
  · rw [avgCurves_getD (by omega)]
    rw [rescaleStep, List.map_map]
    congr 1
    refine List.map_congr_left ?_
    intro l hl
    exact rescaleCurve_getD_zero h2 (hmem l hl)
  · rw [avgCurves_getD (by omega)]
    rw [rescaleStep, List.map_map]
    congr 1
    refine List.map_congr_left ?_
    intro l hl
    have h := rescaleCurve_getD_last h2 (hmem l hl)
    simpa [rescaleCurve_length] using h

/-- C1 witness: the general statement applied to the sample recording with
`num_points = 5`. -/
theorem claim_C1_witness :
    sampleAvg.2.length = 5 ∧
    sampleAvg.2.getD 0 0
      = ratMean (((extractedIntervals sampleDf Row.p_aortic_smooth).filter
          (fun l => decide (2 ≤ l.length))).map (fun l => l.getD 0 0)) ∧
    sampleAvg.2.getD (5 - 1) 0
      = ratMean (((extractedIntervals sampleDf Row.p_aortic_smooth).filter
          (fun l => decide (2 ≤ l.length))).map
            (fun l => l.getD (l.length - 1) 0)) :=
  claim_C1 sampleDf Row.p_aortic_smooth 5 (by decide) sampleAvg.1 sampleAvg.2 (by rfl)

/-- C5: with at least 1000 samples the low subgroup is exactly the samples
strictly below the 25th percentile of `pd/pa` and the high subgroup exactly
those strictly above the 75th; the two subgroups are disjoint subsets of the
input and neither contains a sample of the interquartile range.  With fewer
than 1000 samples both outputs are the full input and the warning fires. -/
theorem claim_C5 (df : List Row) :
    (1000 ≤ df.length →
      (∀ r ∈ (split_df_by_pdpa df).1,
        r ∈ df ∧ r.pdpa < quantile (df.map Row.pdpa) (1/4)) ∧
      (∀ r ∈ df, r.pdpa < quantile (df.map Row.pdpa) (1/4) →
        r ∈ (split_df_by_pdpa df).1) ∧
      (∀ r ∈ (split_df_by_pdpa df).2,
        r ∈ df ∧ quantile (df.map Row.pdpa) (3/4) < r.pdpa) ∧
      (∀ r ∈ df, quantile (df.map Row.pdpa) (3/4) < r.pdpa →
        r ∈ (split_df_by_pdpa df).2) ∧
      (∀ r : Row, ¬(r ∈ (split_df_by_pdpa df).1 ∧ r ∈ (split_df_by_pdpa df).2)) ∧
      (∀ r ∈ (split_df_by_pdpa df).1,
        ¬(quantile (df.map Row.pdpa) (1/4) ≤ r.pdpa ∧
          r.pdpa ≤ quantile (df.map Row.pdpa) (3/4))) ∧
      (∀ r ∈ (split_df_by_pdpa df).2,
        ¬(quantile (df.map Row.pdpa) (1/4) ≤ r.pdpa ∧
          r.pdpa ≤ quantile (df.map Row.pdpa) (3/4)))) ∧
    (df.length < 1000 →
      (split_df_by_pdpa df).1 = df ∧ (split_df_by_pdpa df).2 = df ∧
      splitWarned df = true) := by
  constructor
  · intro hbig
    have hns : ¬ df.length < 1000 := by omega
    have hq : quantile (df.map Row.pdpa) (1/4) ≤ quantile (df.map Row.pdpa) (3/4) := by
      apply quantile_mono
      · rw [List.length_map]; omega
      · norm_num
      · norm_num
    simp only [split_df_by_pdpa, if_neg hns]
    refine ⟨?_, ?_, ?_, ?_, ?_, ?_, ?_⟩
    · intro r hr
      have h := List.mem_filter.mp hr
      exact ⟨h.1, by simpa using h.2⟩
    · intro r hr hlt
      exact List.mem_filter.mpr ⟨hr, by simpa using hlt⟩
    · intro r hr
      have h := List.mem_filter.mp hr
      exact ⟨h.1, by simpa using h.2⟩
    · intro r hr hlt
      exact List.mem_filter.mpr ⟨hr, by simpa using hlt⟩
    · rintro r ⟨h1, h2⟩
      have hv1 : r.pdpa < quantile (df.map Row.pdpa) (1/4) := by
        simpa using (List.mem_filter.mp h1).2
      have hv2 : quantile (df.map Row.pdpa) (3/4) < r.pdpa := by
        simpa using (List.mem_filter.mp h2).2
      linarith
    · rintro r hr ⟨hge, _⟩
      have hv : r.pdpa < quantile (df.map Row.pdpa) (1/4) := by
        simpa using (List.mem_filter.mp hr).2
      linarith
    · rintro r hr ⟨_, hle⟩
      have hv : quantile (df.map Row.pdpa) (3/4) < r.pdpa := by
        simpa using (List.mem_filter.mp hr).2
      linarith
  · intro hsmall
    refine ⟨?_, ?_, ?_⟩ <;> simp [split_df_by_pdpa, splitWarned, hsmall]

/-- C5 witness: on the 1000-sample recording the subgroups exclude the
default row from being in both, and on the 8-sample recording both outputs
are the full input and the warning fires. -/
theorem claim_C5_witness :
    (¬((default : Row) ∈ (split_df_by_pdpa bigDf).1 ∧
       (default : Row) ∈ (split_df_by_pdpa bigDf).2)) ∧
    (split_df_by_pdpa sampleDf).1 = sampleDf ∧
    (split_df_by_pdpa sampleDf).2 = sampleDf ∧
    splitWarned sampleDf = true := by
  have h1 := (claim_C5 bigDf).1 (by simp [bigDf])
  have h2 := (claim_C5 sampleDf).2 (by decide)
  exact ⟨h1.2.2.2.2.1 (default : Row), h2.1, h2.2.1, h2.2.2⟩

/-- C6: with at least 2 diastolic markers and strictly increasing
timestamps, every per-cycle timing contribution of a sparse channel is the
normalized timestamp `(t_valid - t_start) / (t_end - t_start)` of the
first (resp. last) non-missing sample of that cycle; the returned side mean
is in `[0, 1]` when at least one cycle contributes, and is NaN (`none`),
not an error, when none does. -/
theorem claim_C6 (df : List Row) (ch : Row → Option ℚ)
    (hch : ch = Row.aortic_ratio ∨ ch = Row.diastolic_ratio)
    (hmono : df.Pairwise (fun a b => a.time < b.time))
    (hpk : 2 ≤ (diastolicIndices df).length) :
    (∀ x ∈ startTimes df ch, ∃ p ∈ consecPairs (diastolicIndices df), ∃ k,
      firstValidIn df p.1 p.2 ch = some k ∧
      x = ((rowAt df k).time - (rowAt df p.1).time)
            / ((rowAt df p.2).time - (rowAt df p.1).time)) ∧
    (∀ x ∈ endTimes df ch, ∃ p ∈ consecPairs (diastolicIndices df), ∃ k,
      lastValidIn df p.1 p.2 ch = some k ∧
      x = ((rowAt df k).time - (rowAt df p.1).time)
            / ((rowAt df p.2).time - (rowAt df p.1).time)) ∧
    (startTimes df ch ≠ [] →
      ∃ m, meanOpt (startTimes df ch) = some m ∧ 0 ≤ m ∧ m ≤ 1) ∧
    (endTimes df ch ≠ [] →
      ∃ m, meanOpt (endTimes df ch) = some m ∧ 0 ≤ m ∧ m ≤ 1) ∧
    (startTimes df ch = [] → meanOpt (startTimes df ch) = none) ∧
    (endTimes df ch = [] → meanOpt (endTimes df ch) = none) ∧
    (∃ m, get_measurements df = .ok m ∧
      m.start_time_aortic_mean = meanOpt (startTimes df Row.aortic_ratio) ∧
      m.end_time_aortic_mean = meanOpt (endTimes df Row.aortic_ratio) ∧
      m.start_time_diastolic_mean = meanOpt (startTimes df Row.diastolic_ratio) ∧
      m.end_time_diastolic_mean = meanOpt (endTimes df Row.diastolic_ratio)) := by
  refine ⟨?_, ?_, ?_, ?_, ?_, ?_, ?_⟩
  · intro x hx
    obtain ⟨p, hp, k, hfv, hval⟩ := mem_startTimes hx
    exact ⟨p, hp, k, hfv, hval⟩
  · intro x hx
    obtain ⟨p, hp, k, hfv, hval⟩ := mem_endTimes hx
    exact ⟨p, hp, k, hfv, hval⟩
  · intro hne
    refine ⟨ratMean (startTimes df ch), ?_, ?_⟩
    · simp [meanOpt, hne]
    · exact ratMean_unit hne (startTimes_unit hmono)
  · intro hne
    refine ⟨ratMean (endTimes df ch), ?_, ?_⟩
    · simp [meanOpt, hne]
    · exact ratMean_unit hne (endTimes_unit hmono)
  · intro hnil
    simp [meanOpt, hnil]
  · intro hnil
    simp [meanOpt, hnil]
  · rw [get_measurements, if_neg (Nat.not_lt.mpr hpk)]
    exact ⟨_, rfl, rfl, rfl, rfl, rfl⟩

/-- C6 witness: on the sample recording the aortic side means exist and lie
in `[0, 1]`, while the all-missing diastolic channel yields NaN. -/
theorem claim_C6_witness :
    (∃ m, meanOpt (startTimes sampleDf Row.aortic_ratio) = some m ∧ 0 ≤ m ∧ m ≤ 1) ∧
    meanOpt (startTimes sampleDf Row.diastolic_ratio) = none := by
  have h1 := claim_C6 sampleDf Row.aortic_ratio (Or.inl rfl) (by decide) (by decide)
  have h2 := claim_C6 sampleDf Row.diastolic_ratio (Or.inr rfl) (by decide) (by decide)
  exact ⟨h1.2.2.1 (by decide), h2.2.2.2.2.1 (by decide)⟩

/-- C10: once at least 2 diastolic markers exist, every inclusive slice
between consecutive marker indices contains both endpoint samples and hence
at least 2 samples, so the degenerate-cycle skip never fires, at least one
rescaled cycle is retained, and the no-valid-intervals error is unreachable. -/
theorem claim_C10 (df : List Row) (signal : Row → ℚ) (numPoints : ℕ)
    (hpk : 2 ≤ (diastolicIndices df).length) :
    (∀ p ∈ consecPairs (diastolicIndices df),
      2 ≤ (slice df p.1 p.2).length ∧
      (slice df p.1 p.2).getD 0 default = rowAt df p.1 ∧
      (slice df p.1 p.2).getD ((slice df p.1 p.2).length - 1) default = rowAt df p.2) ∧
    (∀ l ∈ extractedIntervals df signal, 2 ≤ l.length) ∧
    rescaleStep numPoints (extractedIntervals df signal) ≠ [] ∧
    get_average_curve_between_diastolic_peaks df signal numPoints
      ≠ .error .noValidIntervals := by
  have hp : ∀ p ∈ consecPairs (diastolicIndices df), p.1 < p.2 ∧ p.2 < df.length := by
    intro p hmem
    exact ⟨consecPairs_fst_lt (diastolicIndices_pairwise df) hmem,
           mem_diastolicIndices_lt (mem_consecPairs hmem).2⟩
  have hslice : ∀ p ∈ consecPairs (diastolicIndices df), 2 ≤ (slice df p.1 p.2).length := by
    intro p hmem
    obtain ⟨h1, h2⟩ := hp p hmem
    rw [slice_length (le_of_lt h1) h2]
    omega
  have hint : ∀ l ∈ extractedIntervals df signal, 2 ≤ l.length := by
    intro l hl
    simp only [extractedIntervals, List.mem_map] at hl
    obtain ⟨p, hpmem, rfl⟩ := hl
    simpa using hslice p hpmem
  have hne : extractedIntervals df signal ≠ [] := by
    have hlen : (extractedIntervals df signal).length = (diastolicIndices df).length - 1 := by
      simp [extractedIntervals, consecPairs_length]
    intro h
    rw [h] at hlen
    simp at hlen
    omega
  have hfilter : (extractedIntervals df signal).filter (fun l => decide (2 ≤ l.length))
      = extractedIntervals df signal := by
    rw [List.filter_eq_self]
    intro a ha
    simpa using hint a ha
  have hstep : rescaleStep numPoints (extractedIntervals df signal) ≠ [] := by
    simp only [rescaleStep, hfilter]
    intro h
    exact hne (List.map_eq_nil_iff.mp h)
  refine ⟨fun p hmem => ⟨hslice p hmem, slice_getD_zero,
    slice_getD_last (le_of_lt (hp p hmem).1) (hp p hmem).2⟩, hint, hstep, ?_⟩
  rw [get_average_curve_between_diastolic_peaks, if_neg (Nat.not_lt.mpr hpk)]
  simp only [averageFromIntervals]
  rw [if_neg hstep]
  simp

/-- C10 witness: the general statement applied to the sample recording and
its first cycle. -/
theorem claim_C10_witness :
    (2 ≤ (slice sampleDf 2 4).length ∧
      (slice sampleDf 2 4).getD 0 default = rowAt sampleDf 2 ∧
      (slice sampleDf 2 4).getD ((slice sampleDf 2 4).length - 1) default
        = rowAt sampleDf 4) ∧
    get_average_curve_between_diastolic_peaks sampleDf Row.p_aortic_smooth 100
      ≠ .error .noValidIntervals :=
  ⟨(claim_C10 sampleDf Row.p_aortic_smooth 100 (by decide)).1 (2, 4) (by decide),
   (claim_C10 sampleDf Row.p_aortic_smooth 100 (by decide)).2.2.2⟩

/-- C8 witness: one identifier per branch. -/
theorem claim_C8_witness :
    condLabel ("pt1_rest".toList) = "rest" ∧
    condLabel ("pt1_ade".toList) = "ado" ∧
    condLabel ("pt1_stress".toList) = "dobu" :=
  ⟨(claim_C8 _).1 (by decide),
   (claim_C8 _).2.1 (by decide) (by decide),
   (claim_C8 _).2.2 (by decide) (by decide)⟩

end PostProcessing
